import Mathlib

/-!
Verification of the SKINNY-128-128 `Encrypt` primitive from
`src/SKINNY-128-128/encrypt.c` (FELICS).  The file embeds the three
architecture-specific inline-assembly bodies (AVR, MSP430, ARM) of `Encrypt`
as executable Lean functions over `Nat` bytes and machine words, together
with a byte-level reading of the common round pipeline, and proves the
correspondence between them.  Machine words are `Nat`s with explicit
`% 2^w` arithmetic; the S-box and the round-key stream are parameters
(`Nat → Nat`), since their contents live outside this translation unit.
-/

namespace Skinny

/-- The 16 byte cells of the SKINNY state, row-major: row 0 is `s0..s3`,
row 1 is `s4..s7`, row 2 is `s8..s11`, row 3 is `s12..s15`. -/
structure S16 where
  s0 : Nat
  s1 : Nat
  s2 : Nat
  s3 : Nat
  s4 : Nat
  s5 : Nat
  s6 : Nat
  s7 : Nat
  s8 : Nat
  s9 : Nat
  s10 : Nat
  s11 : Nat
  s12 : Nat
  s13 : Nat
  s14 : Nat
  s15 : Nat
deriving DecidableEq, Repr

/-- All 16 cells are bytes. -/
def Bounded (st : S16) : Prop :=
  st.s0 < 256 ∧ st.s1 < 256 ∧ st.s2 < 256 ∧ st.s3 < 256 ∧
  st.s4 < 256 ∧ st.s5 < 256 ∧ st.s6 < 256 ∧ st.s7 < 256 ∧
  st.s8 < 256 ∧ st.s9 < 256 ∧ st.s10 < 256 ∧ st.s11 < 256 ∧
  st.s12 < 256 ∧ st.s13 < 256 ∧ st.s14 < 256 ∧ st.s15 < 256

instance (st : S16) : Decidable (Bounded st) := by
  unfold Bounded; infer_instance

/-- Little-endian packing of two bytes into a 16-bit word (MSP430 registers). -/
def pack2 (b0 b1 : Nat) : Nat := b0 + 256 * b1

/-- Little-endian packing of four bytes into a 32-bit word (ARM registers). -/
def pack4 (b0 b1 b2 b3 : Nat) : Nat := b0 + 256 * (b1 + 256 * (b2 + 256 * b3))

/-- ARM `bfi` (bitfield insert): replace bits `lsb..lsb+width-1` of `w` with
the low `width` bits of `v`. -/
def bfi (w v lsb width : Nat) : Nat :=
  w % 2 ^ lsb + v % 2 ^ width * 2 ^ lsb + w / 2 ^ (lsb + width) * 2 ^ (lsb + width)

/-- ARM `ror` on a 32-bit word: rotate right by `k` bits. -/
def ror32 (w k : Nat) : Nat := w / 2 ^ k + w % 2 ^ k * 2 ^ (32 - k)

/-- MSP430 `swpb`: swap the two bytes of a 16-bit word. -/
def swpb (w : Nat) : Nat := w % 256 * 256 + w / 256 % 256

/-! ## Byte-level reading of the round pipeline

These definitions state, cell by cell, what one round of the source code does
to the 16-byte state.  They are proved below to be exactly what each of the
three assembly bodies computes (`armRound_load`, `avrRound_load`,
`mspRound_load`). -/

/-- SubCells: every cell is replaced by its S-box image. -/
def subCells (S : Nat → Nat) (st : S16) : S16 :=
  { s0 := S st.s0, s1 := S st.s1, s2 := S st.s2, s3 := S st.s3,
    s4 := S st.s4, s5 := S st.s5, s6 := S st.s6, s7 := S st.s7,
    s8 := S st.s8, s9 := S st.s9, s10 := S st.s10, s11 := S st.s11,
    s12 := S st.s12, s13 := S st.s13, s14 := S st.s14, s15 := S st.s15 }

/-- AddConstants and AddRoundTweakey: the 8-byte round-key chunk at offset
`off` is XORed into cells `s0..s7`, and the constant `0x02` into `s8`. -/
def addRoundKey (rk : Nat → Nat) (off : Nat) (st : S16) : S16 :=
  { st with
    s0 := st.s0 ^^^ rk off, s1 := st.s1 ^^^ rk (off + 1),
    s2 := st.s2 ^^^ rk (off + 2), s3 := st.s3 ^^^ rk (off + 3),
    s4 := st.s4 ^^^ rk (off + 4), s5 := st.s5 ^^^ rk (off + 5),
    s6 := st.s6 ^^^ rk (off + 6), s7 := st.s7 ^^^ rk (off + 7),
    s8 := st.s8 ^^^ 2 }

/-- ShiftRows: row `k` is rotated right by `k` cells. -/
def shiftRows (st : S16) : S16 :=
  { s0 := st.s0, s1 := st.s1, s2 := st.s2, s3 := st.s3,
    s4 := st.s7, s5 := st.s4, s6 := st.s5, s7 := st.s6,
    s8 := st.s10, s9 := st.s11, s10 := st.s8, s11 := st.s9,
    s12 := st.s13, s13 := st.s14, s14 := st.s15, s15 := st.s12 }

/-- The three per-column XORs of the MixColumns block:
`row1 ^= row2; row2 ^= row0; row3 ^= row2` (updated `row2` in the third). -/
def mixColumnsXors (st : S16) : S16 :=
  let t8 := st.s8 ^^^ st.s0
  let t9 := st.s9 ^^^ st.s1
  let t10 := st.s10 ^^^ st.s2
  let t11 := st.s11 ^^^ st.s3
  { s0 := st.s0, s1 := st.s1, s2 := st.s2, s3 := st.s3,
    s4 := st.s4 ^^^ st.s8, s5 := st.s5 ^^^ st.s9,
    s6 := st.s6 ^^^ st.s10, s7 := st.s7 ^^^ st.s11,
    s8 := t8, s9 := t9, s10 := t10, s11 := t11,
    s12 := st.s12 ^^^ t8, s13 := st.s13 ^^^ t9,
    s14 := st.s14 ^^^ t10, s15 := st.s15 ^^^ t11 }

/-- The row renaming that ends the MixColumns block of every assembly body
(ARM: the five `mov`s after the three `eors`): the rows of the XORed state
are moved down one row, the last row becoming row 0. -/
def rotateRowsDown (st : S16) : S16 :=
  { s0 := st.s12, s1 := st.s13, s2 := st.s14, s3 := st.s15,
    s4 := st.s0, s5 := st.s1, s6 := st.s2, s7 := st.s3,
    s8 := st.s4, s9 := st.s5, s10 := st.s6, s11 := st.s7,
    s12 := st.s8, s13 := st.s9, s14 := st.s10, s15 := st.s11 }

/-- One full round as the source code performs it: SubCells, AddConstants +
AddRoundTweakey, ShiftRows, then the MixColumns block (three XORs followed by
the downward row renaming). -/
def roundSkinny (S rk : Nat → Nat) (off : Nat) (st : S16) : S16 :=
  rotateRowsDown (mixColumnsXors (shiftRows (addRoundKey rk off (subCells S st))))

/-- `n` rounds of `roundSkinny`, consuming 8 key bytes per round starting at
offset `off`. -/
def skinnyRounds (S rk : Nat → Nat) : Nat → Nat → S16 → S16
  | 0, _, st => st
  | n + 1, off, st => skinnyRounds S rk n (off + 8) (roundSkinny S rk off st)

/-- Modelled from the spec: the spec's section 4.1 step 4 describes MixColumns
as only the three per-column XORs `row1 ^= row2; row2 ^= row0; row3 ^= row2`
(updated `row2` in the third XOR), with row 0 unchanged and no row permuted.
This definition follows those words, for comparison with the source's
MixColumns block. -/
def mixColumnsSpec (st : S16) : S16 :=
  let t8 := st.s8 ^^^ st.s0
  let t9 := st.s9 ^^^ st.s1
  let t10 := st.s10 ^^^ st.s2
  let t11 := st.s11 ^^^ st.s3
  { s0 := st.s0, s1 := st.s1, s2 := st.s2, s3 := st.s3,
    s4 := st.s4 ^^^ st.s8, s5 := st.s5 ^^^ st.s9,
    s6 := st.s6 ^^^ st.s10, s7 := st.s7 ^^^ st.s11,
    s8 := t8, s9 := t9, s10 := t10, s11 := t11,
    s12 := st.s12 ^^^ t8, s13 := st.s13 ^^^ t9,
    s14 := st.s14 ^^^ t10, s15 := st.s15 ^^^ t11 }

/-- Modelled from the spec: one round of the spec's pipeline, with MixColumns
taken literally as the three XORs and nothing else. -/
def roundSpec (S rk : Nat → Nat) (off : Nat) (st : S16) : S16 :=
  mixColumnsSpec (shiftRows (addRoundKey rk off (subCells S st)))

/-- Modelled from the spec: `n` rounds of the spec's pipeline. -/
def specRounds (S rk : Nat → Nat) : Nat → Nat → S16 → S16
  | 0, _, st => st
  | n + 1, off, st => specRounds S rk n (off + 8) (roundSpec S rk off st)

/-! ## ARM body (`encrypt.c` lines 397-501)

The cipher state lives in the four 32-bit registers `r2..r5`; `r2` holds
`(s3 s2 s1 s0)` little-endian, and so on. -/

/-- The four ARM registers `r2..r5` holding the state. -/
structure ArmState where
  r2 : Nat
  r3 : Nat
  r4 : Nat
  r5 : Nat
deriving DecidableEq, Repr

/-- One `and`/`ldrb`/`bfi` triple: substitute byte 0 of a word. -/
def armSubByte0 (S : Nat → Nat) (w : Nat) : Nat := bfi w (S (w % 256)) 0 8

/-- Substitute byte 1 of a word (`and r6, r10, rX, lsr #8` with `r10 = 0xff`). -/
def armSubByte1 (S : Nat → Nat) (w : Nat) : Nat := bfi w (S (w / 256 % 256)) 8 8

/-- Substitute byte 2 of a word. -/
def armSubByte2 (S : Nat → Nat) (w : Nat) : Nat := bfi w (S (w / 65536 % 256)) 16 8

/-- Substitute byte 3 of a word (`mov r6, rX, lsr #24`, no mask). -/
def armSubByte3 (S : Nat → Nat) (w : Nat) : Nat := bfi w (S (w / 16777216)) 24 8

/-- SubCells on one ARM register, bytes 0 to 3 in the order of the source. -/
def armSubWord (S : Nat → Nat) (w : Nat) : Nat :=
  armSubByte3 S (armSubByte2 S (armSubByte1 S (armSubByte0 S w)))

/-- The SubCells block: lines 413-469. -/
def armSubCells (S : Nat → Nat) (a : ArmState) : ArmState :=
  { r2 := armSubWord S a.r2, r3 := armSubWord S a.r3,
    r4 := armSubWord S a.r4, r5 := armSubWord S a.r5 }

/-- The AddConstants and AddRoundTweakey block, lines 470-475: `ldrd` loads
two little-endian key words at the cursor, the cursor advances by 8, the key
words are XORed into `r2` and `r3`, and `0x02` into `r4`. -/
def armAddKey (rk : Nat → Nat) (off : Nat) (a : ArmState) : Nat × ArmState :=
  let k0 := pack4 (rk off) (rk (off + 1)) (rk (off + 2)) (rk (off + 3))
  let k1 := pack4 (rk (off + 4)) (rk (off + 5)) (rk (off + 6)) (rk (off + 7))
  (off + 8, { r2 := a.r2 ^^^ k0, r3 := a.r3 ^^^ k1, r4 := a.r4 ^^^ 2, r5 := a.r5 })

/-- The ShiftRows block, lines 476-482: three rotate-rights. -/
def armShiftRows (a : ArmState) : ArmState :=
  { r2 := a.r2, r3 := ror32 a.r3 24, r4 := ror32 a.r4 16, r5 := ror32 a.r5 8 }

/-- The MixColumns block, lines 483-494: three `eors` followed by the five
`mov`s that permute the registers. -/
def armMixColumns (a : ArmState) : ArmState :=
  let n3 := a.r3 ^^^ a.r4
  let n4 := a.r4 ^^^ a.r2
  let n5 := a.r5 ^^^ n4
  { r2 := n5, r3 := a.r2, r4 := n3, r5 := n4 }

/-- One iteration of `enc_loop` in the ARM body, returning the advanced
round-key cursor and the new register state. -/
def armRound (S rk : Nat → Nat) (off : Nat) (a : ArmState) : Nat × ArmState :=
  let p := armAddKey rk off (armSubCells S a)
  (p.1, armMixColumns (armShiftRows p.2))

/-- `n` iterations of `enc_loop` (the source initializes the counter to 40). -/
def armRounds (S rk : Nat → Nat) : Nat → Nat → ArmState → Nat × ArmState
  | 0, off, a => (off, a)
  | n + 1, off, a =>
      let p := armRound S rk off a
      armRounds S rk n p.1 p.2

/-- `ldmia r0, {r2-r5}`: load the plaintext, little-endian words. -/
def armLoad (b : S16) : ArmState :=
  { r2 := pack4 b.s0 b.s1 b.s2 b.s3, r3 := pack4 b.s4 b.s5 b.s6 b.s7,
    r4 := pack4 b.s8 b.s9 b.s10 b.s11, r5 := pack4 b.s12 b.s13 b.s14 b.s15 }

/-- `stmia r0, {r2-r5}`: store the ciphertext, little-endian words. -/
def armStore (a : ArmState) : S16 :=
  { s0 := a.r2 % 256, s1 := a.r2 / 256 % 256,
    s2 := a.r2 / 65536 % 256, s3 := a.r2 / 16777216 % 256,
    s4 := a.r3 % 256, s5 := a.r3 / 256 % 256,
    s6 := a.r3 / 65536 % 256, s7 := a.r3 / 16777216 % 256,
    s8 := a.r4 % 256, s9 := a.r4 / 256 % 256,
    s10 := a.r4 / 65536 % 256, s11 := a.r4 / 16777216 % 256,
    s12 := a.r5 % 256, s13 := a.r5 / 256 % 256,
    s14 := a.r5 / 65536 % 256, s15 := a.r5 / 16777216 % 256 }

/-- The ARM `Encrypt`: load the block, run `enc_loop` 40 times with the key
cursor starting at the beginning of `roundKeys`, store the result in place. -/
def Encrypt_ARM (S rk : Nat → Nat) (b : S16) : S16 :=
  armStore (armRounds S rk 40 0 (armLoad b)).2

/-! ## AVR body (`encrypt.c` lines 41-266)

The state lives in the sixteen byte registers `r8..r23`.  The registers are
kept in a rotated arrangement between rounds ("the registers are not in
order", lines 84-90); the `SubCells with ShiftRows` block of each round reads
every register through the temporaries `r6`/`r7` before overwriting it, so
each substitution below reads the pre-round value. -/

/-- The sixteen AVR state registers. -/
structure AvrState where
  r8 : Nat
  r9 : Nat
  r10 : Nat
  r11 : Nat
  r12 : Nat
  r13 : Nat
  r14 : Nat
  r15 : Nat
  r16 : Nat
  r17 : Nat
  r18 : Nat
  r19 : Nat
  r20 : Nat
  r21 : Nat
  r22 : Nat
  r23 : Nat
deriving DecidableEq, Repr

/-- The sixteen `ld rX, x+` instructions, lines 91-106. -/
def avrLoad (b : S16) : AvrState :=
  { r21 := b.s0, r22 := b.s1, r23 := b.s2, r20 := b.s3,
    r8 := b.s4, r9 := b.s5, r10 := b.s6, r11 := b.s7,
    r15 := b.s8, r12 := b.s9, r13 := b.s10, r14 := b.s11,
    r18 := b.s12, r19 := b.s13, r16 := b.s14, r17 := b.s15 }

/-- The `SubCells with ShiftRows` block, lines 114-157 (`movw r6, r8` saves
`r8`/`r9` first; every other read happens before the register is written). -/
def avrSubShift (S : Nat → Nat) (a : AvrState) : AvrState :=
  { r8 := S a.r21, r21 := S a.r19, r19 := S a.r14, r14 := S a.r10,
    r10 := S a.r23, r23 := S a.r17, r17 := S a.r12, r12 := S a.r8,
    r9 := S a.r22, r22 := S a.r16, r16 := S a.r15, r15 := S a.r11,
    r11 := S a.r20, r20 := S a.r18, r18 := S a.r13, r13 := S a.r9 }

/-- The AddConstants and AddRoundTweakey block, lines 158-201: eight key
bytes XORed into `r8..r15`, the constant `0x02` (kept in `r25`) into `r16`.
The `lpm`/`ld` choice under `SCENARIO` only selects flash versus RAM for the
key bytes; both read the same stream. -/
def avrAddKey (rk : Nat → Nat) (off : Nat) (a : AvrState) : AvrState :=
  { a with
    r8 := a.r8 ^^^ rk off, r9 := a.r9 ^^^ rk (off + 1),
    r10 := a.r10 ^^^ rk (off + 2), r11 := a.r11 ^^^ rk (off + 3),
    r12 := a.r12 ^^^ rk (off + 4), r13 := a.r13 ^^^ rk (off + 5),
    r14 := a.r14 ^^^ rk (off + 6), r15 := a.r15 ^^^ rk (off + 7),
    r16 := a.r16 ^^^ 2 }

/-- The MixColumns block, lines 202-229: four columns of three `eor`s each,
the third XOR of each column reading the just-updated register. -/
def avrMix (a : AvrState) : AvrState :=
  let n15 := a.r15 ^^^ a.r18
  let n18 := a.r18 ^^^ a.r8
  let n21 := a.r21 ^^^ n18
  let n12 := a.r12 ^^^ a.r19
  let n19 := a.r19 ^^^ a.r9
  let n22 := a.r22 ^^^ n19
  let n13 := a.r13 ^^^ a.r16
  let n16 := a.r16 ^^^ a.r10
  let n23 := a.r23 ^^^ n16
  let n14 := a.r14 ^^^ a.r17
  let n17 := a.r17 ^^^ a.r11
  let n20 := a.r20 ^^^ n17
  { a with
    r15 := n15, r18 := n18, r21 := n21, r12 := n12, r19 := n19, r22 := n22,
    r13 := n13, r16 := n16, r23 := n23, r14 := n14, r17 := n17, r20 := n20 }

/-- One iteration of the AVR `enc_loop`. -/
def avrRound (S rk : Nat → Nat) (off : Nat) (a : AvrState) : AvrState :=
  avrMix (avrAddKey rk off (avrSubShift S a))

/-- `n` iterations of the AVR `enc_loop` (`ldi r24, 40` sets the counter);
the `Z` pointer advances 8 bytes per round. -/
def avrRounds (S rk : Nat → Nat) : Nat → Nat → AvrState → AvrState
  | 0, _, a => a
  | n + 1, off, a => avrRounds S rk n (off + 8) (avrRound S rk off a)

/-- The sixteen stores, lines 232-248 (`st x` then fifteen `st -x`). -/
def avrStore (a : AvrState) : S16 :=
  { s0 := a.r21, s1 := a.r22, s2 := a.r23, s3 := a.r20,
    s4 := a.r8, s5 := a.r9, s6 := a.r10, s7 := a.r11,
    s8 := a.r15, s9 := a.r12, s10 := a.r13, s11 := a.r14,
    s12 := a.r18, s13 := a.r19, s14 := a.r16, s15 := a.r17 }

/-- The AVR `Encrypt`. -/
def Encrypt_AVR (S rk : Nat → Nat) (b : S16) : S16 :=
  avrStore (avrRounds S rk 40 0 (avrLoad b))

/-! ## MSP body (`encrypt.c` lines 269-394)

The state lives in the eight 16-bit registers `r4..r11`; each round writes
the substituted-and-shifted state into the block memory through `r15`
(all 16 cells are written before any is read back), then reloads it in the
rotated word order for the MixColumns XORs. -/

/-- The eight MSP430 state registers. -/
structure MspState where
  r4 : Nat
  r5 : Nat
  r6 : Nat
  r7 : Nat
  r8 : Nat
  r9 : Nat
  r10 : Nat
  r11 : Nat
deriving DecidableEq, Repr

/-- The merged SubCells / AddConstants / AddRoundTweakey / ShiftRows block,
lines 296-353: the block memory cells it writes, each computed by `mov.b`
(low byte), `swpb` for the high byte, the `SBOX` lookup, and for `s0..s7`
the `xor.b @r14+` with the next key byte; `0x02` is XORed into the cell
written at offset 10. -/
def mspSub (S rk : Nat → Nat) (off : Nat) (a : MspState) : S16 :=
  { s0 := S (a.r4 % 256) ^^^ rk off,
    s1 := S (swpb a.r4 % 256) ^^^ rk (off + 1),
    s2 := S (a.r5 % 256) ^^^ rk (off + 2),
    s3 := S (swpb a.r5 % 256) ^^^ rk (off + 3),
    s5 := S (a.r6 % 256) ^^^ rk (off + 4),
    s6 := S (swpb a.r6 % 256) ^^^ rk (off + 5),
    s7 := S (a.r7 % 256) ^^^ rk (off + 6),
    s4 := S (swpb a.r7 % 256) ^^^ rk (off + 7),
    s10 := S (a.r8 % 256) ^^^ 2,
    s11 := S (swpb a.r8 % 256),
    s8 := S (a.r9 % 256),
    s9 := S (swpb a.r9 % 256),
    s15 := S (a.r10 % 256),
    s12 := S (swpb a.r10 % 256),
    s13 := S (a.r11 % 256),
    s14 := S (swpb a.r11 % 256) }

/-- The MixColumns block, lines 354-373: reload the eight words from the
block memory in rotated order, then two groups of three word XORs. -/
def mspMix (m : S16) : MspState :=
  let r6 := pack2 m.s0 m.s1
  let r7 := pack2 m.s2 m.s3
  let r8 := pack2 m.s4 m.s5
  let r9 := pack2 m.s6 m.s7
  let r10 := pack2 m.s8 m.s9
  let r11 := pack2 m.s10 m.s11
  let r4 := pack2 m.s12 m.s13
  let r5 := pack2 m.s14 m.s15
  let n8 := r8 ^^^ r10
  let n10 := r10 ^^^ r6
  let n4 := r4 ^^^ n10
  let n9 := r9 ^^^ r11
  let n11 := r11 ^^^ r7
  let n5 := r5 ^^^ n11
  { r4 := n4, r5 := n5, r6 := r6, r7 := r7,
    r8 := n8, r9 := n9, r10 := n10, r11 := n11 }

/-- One iteration of the MSP `enc_loop`: the round overwrites all 16 block
memory cells before the MixColumns reload, so the memory it leaves behind is
`mspSub` of the register state. -/
def mspRound (S rk : Nat → Nat) (off : Nat) (a : MspState) : MspState × S16 :=
  let m := mspSub S rk off a
  (mspMix m, m)

/-- `n` iterations of the MSP `enc_loop` (`mov #40, r13`), threading the
block memory; `r14` advances 8 bytes per round. -/
def mspRounds (S rk : Nat → Nat) : Nat → Nat → MspState → S16 → MspState × S16
  | 0, _, a, m => (a, m)
  | n + 1, off, a, m =>
      let p := mspRound S rk off a
      let _ := m
      mspRounds S rk n (off + 8) p.1 p.2

/-- The eight word loads, lines 286-293, little-endian. -/
def mspLoad (b : S16) : MspState :=
  { r4 := pack2 b.s0 b.s1, r5 := pack2 b.s2 b.s3,
    r6 := pack2 b.s4 b.s5, r7 := pack2 b.s6 b.s7,
    r8 := pack2 b.s8 b.s9, r9 := pack2 b.s10 b.s11,
    r10 := pack2 b.s12 b.s13, r11 := pack2 b.s14 b.s15 }

/-- The eight word stores, lines 376-383, overwriting all 16 block bytes. -/
def mspStore (a : MspState) : S16 :=
  { s0 := a.r4 % 256, s1 := a.r4 / 256 % 256,
    s2 := a.r5 % 256, s3 := a.r5 / 256 % 256,
    s4 := a.r6 % 256, s5 := a.r6 / 256 % 256,
    s6 := a.r7 % 256, s7 := a.r7 / 256 % 256,
    s8 := a.r8 % 256, s9 := a.r8 / 256 % 256,
    s10 := a.r9 % 256, s11 := a.r9 / 256 % 256,
    s12 := a.r10 % 256, s13 := a.r10 / 256 % 256,
    s14 := a.r11 % 256, s15 := a.r11 / 256 % 256 }

/-- The MSP `Encrypt`. -/
def Encrypt_MSP (S rk : Nat → Nat) (b : S16) : S16 :=
  mspStore (mspRounds S rk 40 0 (mspLoad b) b).1

/-! ## Memory-level view and the generic stub -/

/-- The memories `Encrypt` can reach: the block buffer, the round-key buffer
and the S-box table, each as a byte map. -/
structure Mem where
  blk : Nat → Nat
  key : Nat → Nat
  sbox : Nat → Nat

/-- Read the 16-byte block out of memory. -/
def loadBlock (f : Nat → Nat) : S16 :=
  { s0 := f 0, s1 := f 1, s2 := f 2, s3 := f 3,
    s4 := f 4, s5 := f 5, s6 := f 6, s7 := f 7,
    s8 := f 8, s9 := f 9, s10 := f 10, s11 := f 11,
    s12 := f 12, s13 := f 13, s14 := f 14, s15 := f 15 }

/-- Write the 16 ciphertext bytes at offsets 0..15 of the block buffer. -/
def storeBlock (b : S16) (f : Nat → Nat) : Nat → Nat := fun i =>
  if i = 0 then b.s0 else if i = 1 then b.s1 else
  if i = 2 then b.s2 else if i = 3 then b.s3 else
  if i = 4 then b.s4 else if i = 5 then b.s5 else
  if i = 6 then b.s6 else if i = 7 then b.s7 else
  if i = 8 then b.s8 else if i = 9 then b.s9 else
  if i = 10 then b.s10 else if i = 11 then b.s11 else
  if i = 12 then b.s12 else if i = 13 then b.s13 else
  if i = 14 then b.s14 else if i = 15 then b.s15 else f i

/-- The ARM `Encrypt` acting on memory: its only stores are the sixteen
final bytes through the block pointer; `roundKeys` and `SBOX` are only read. -/
def Encrypt_ARM_mem (m : Mem) : Mem :=
  { m with blk := storeBlock (Encrypt_ARM m.sbox m.key (loadBlock m.blk)) m.blk }

/-- The generic stub, lines 503-508: the function body is empty. -/
def Encrypt_generic (m : Mem) : Mem := m

/-! ## Concrete inputs for witnesses and counterexamples -/

/-- The all-zero 16-byte block. -/
def zeroBlock : S16 := ⟨0, 0, 0, 0, 0, 0, 0, 0, 0, 0, 0, 0, 0, 0, 0, 0⟩

/-- A state that is zero outside cell `s12` (row 3, column 0). -/
def oneS12 : S16 := ⟨0, 0, 0, 0, 0, 0, 0, 0, 0, 0, 0, 0, 1, 0, 0, 0⟩

/-- The identity S-box, a valid byte permutation used as a concrete instance. -/
def idSbox : Nat → Nat := fun n => n % 256

/-- The all-zero round-key stream. -/
def zeroKeys : Nat → Nat := fun _ => 0

/-- A key stream that is zero on the 320 consumed bytes and 7 beyond them. -/
def zeroKeys320 : Nat → Nat := fun i => if i < 320 then 0 else 7

/-- A state that is zero outside cell `s1` (row 0, column 1). -/
def oneS1 : S16 := ⟨0, 5, 0, 0, 0, 0, 0, 0, 0, 0, 0, 0, 0, 0, 0, 0⟩

/-- The four cells of column `j` of a state, top to bottom. -/
def colCells (st : S16) (j : Nat) : Nat × Nat × Nat × Nat :=
  match j with
  | 0 => (st.s0, st.s4, st.s8, st.s12)
  | 1 => (st.s1, st.s5, st.s9, st.s13)
  | 2 => (st.s2, st.s6, st.s10, st.s14)
  | _ => (st.s3, st.s7, st.s11, st.s15)

/-- A concrete memory for the frame theorems. -/
def memExample : Mem := { blk := fun i => i % 256, key := fun _ => 0, sbox := fun n => n % 256 }

/-! ## Arithmetic helper lemmas -/

theorem xor_lt256 {a b : Nat} (ha : a < 256) (hb : b < 256) : a ^^^ b < 256 := by
  have e : (256 : Nat) = 2 ^ 8 := by norm_num
  rw [e] at ha hb ⊢
  exact Nat.xor_lt_two_pow ha hb

/-- XOR acts independently on the low byte and the high part of a
byte-decomposed natural number. -/
theorem xor_byte_split (x0 y0 xh yh : Nat) (hx : x0 < 256) (hy : y0 < 256) :
    (x0 + 256 * xh) ^^^ (y0 + 256 * yh) = (x0 ^^^ y0) + 256 * (xh ^^^ yh) := by
  have hxy : x0 ^^^ y0 < 256 := xor_lt256 hx hy
  have e : ∀ a b : Nat, a + 256 * b = 2 ^ 8 * b + a := by intro a b; norm_num; omega
  rw [e x0 xh, e y0 yh, e (x0 ^^^ y0) (xh ^^^ yh)]
  have e8 : (256 : Nat) = 2 ^ 8 := by norm_num
  rw [e8] at hx hy hxy
  apply Nat.eq_of_testBit_eq
  intro i
  rw [Nat.testBit_xor, Nat.testBit_mul_pow_two_add xh hx i, Nat.testBit_mul_pow_two_add yh hy i,
    Nat.testBit_mul_pow_two_add (xh ^^^ yh) hxy i]
  by_cases h : i < 8 <;> simp [h]

theorem pack2_xor (a0 a1 b0 b1 : Nat) (ha : a0 < 256) (hb : b0 < 256) :
    pack2 a0 a1 ^^^ pack2 b0 b1 = pack2 (a0 ^^^ b0) (a1 ^^^ b1) := by
  unfold pack2
  exact xor_byte_split a0 b0 a1 b1 ha hb

theorem pack4_xor (a0 a1 a2 a3 b0 b1 b2 b3 : Nat)
    (ha0 : a0 < 256) (ha1 : a1 < 256) (ha2 : a2 < 256)
    (hb0 : b0 < 256) (hb1 : b1 < 256) (hb2 : b2 < 256) :
    pack4 a0 a1 a2 a3 ^^^ pack4 b0 b1 b2 b3
      = pack4 (a0 ^^^ b0) (a1 ^^^ b1) (a2 ^^^ b2) (a3 ^^^ b3) := by
  unfold pack4
  rw [xor_byte_split _ _ _ _ ha0 hb0, xor_byte_split _ _ _ _ ha1 hb1,
    xor_byte_split _ _ _ _ ha2 hb2]

/-- XOR of a byte constant touches only the low byte of a packed word. -/
theorem pack4_xor_low (a0 a1 a2 a3 c : Nat) (h0 : a0 < 256) (hc : c < 256) :
    pack4 a0 a1 a2 a3 ^^^ c = pack4 (a0 ^^^ c) a1 a2 a3 := by
  unfold pack4
  conv_lhs => rw [show c = c + 256 * 0 by omega]
  rw [xor_byte_split _ _ _ _ h0 hc, Nat.xor_zero]

theorem pack2_lo (a b : Nat) (ha : a < 256) : pack2 a b % 256 = a := by
  unfold pack2; omega

theorem pack2_hi (a b : Nat) (ha : a < 256) (hb : b < 256) : pack2 a b / 256 % 256 = b := by
  unfold pack2; omega

theorem swpb_pack2 (a b : Nat) (ha : a < 256) (hb : b < 256) : swpb (pack2 a b) = pack2 b a := by
  unfold swpb pack2; omega

theorem swpb_lo (a b : Nat) (ha : a < 256) (hb : b < 256) : swpb (pack2 a b) % 256 = b := by
  rw [swpb_pack2 a b ha hb, pack2_lo b a hb]

theorem pack4_byte0 (b0 b1 b2 b3 : Nat) (h0 : b0 < 256) :
    pack4 b0 b1 b2 b3 % 256 = b0 := by
  unfold pack4; omega

theorem pack4_byte1 (b0 b1 b2 b3 : Nat) (h0 : b0 < 256) (h1 : b1 < 256) :
    pack4 b0 b1 b2 b3 / 256 % 256 = b1 := by
  unfold pack4; omega

theorem pack4_byte2 (b0 b1 b2 b3 : Nat) (h0 : b0 < 256) (h1 : b1 < 256) (h2 : b2 < 256) :
    pack4 b0 b1 b2 b3 / 65536 % 256 = b2 := by
  unfold pack4; omega

theorem pack4_byte3 (b0 b1 b2 b3 : Nat) (h0 : b0 < 256) (h1 : b1 < 256) (h2 : b2 < 256)
    (h3 : b3 < 256) : pack4 b0 b1 b2 b3 / 16777216 % 256 = b3 := by
  unfold pack4; omega

/-! ## ARM word-level lemmas: each block acts on packed bytes as the
byte-level pipeline step does -/

theorem armSubByte0_pack (S : Nat → Nat) (b0 b1 b2 b3 : Nat) (h0 : b0 < 256)
    (hS : S b0 < 256) :
    armSubByte0 S (pack4 b0 b1 b2 b3) = pack4 (S b0) b1 b2 b3 := by
  have e : pack4 b0 b1 b2 b3 % 256 = b0 := by unfold pack4; omega
  unfold armSubByte0
  rw [e]
  unfold bfi pack4
  norm_num
  omega

theorem armSubByte1_pack (S : Nat → Nat) (b0 b1 b2 b3 : Nat) (h0 : b0 < 256) (h1 : b1 < 256)
    (hS : S b1 < 256) :
    armSubByte1 S (pack4 b0 b1 b2 b3) = pack4 b0 (S b1) b2 b3 := by
  have e : pack4 b0 b1 b2 b3 / 256 % 256 = b1 := by unfold pack4; omega
  unfold armSubByte1
  rw [e]
  unfold bfi pack4
  norm_num
  omega

theorem armSubByte2_pack (S : Nat → Nat) (b0 b1 b2 b3 : Nat) (h0 : b0 < 256) (h1 : b1 < 256)
    (h2 : b2 < 256) (hS : S b2 < 256) :
    armSubByte2 S (pack4 b0 b1 b2 b3) = pack4 b0 b1 (S b2) b3 := by
  have e : pack4 b0 b1 b2 b3 / 65536 % 256 = b2 := by unfold pack4; omega
  unfold armSubByte2
  rw [e]
  unfold bfi pack4
  norm_num
  omega

theorem armSubByte3_pack (S : Nat → Nat) (b0 b1 b2 b3 : Nat) (h0 : b0 < 256) (h1 : b1 < 256)
    (h2 : b2 < 256) (h3 : b3 < 256) (hS : S b3 < 256) :
    armSubByte3 S (pack4 b0 b1 b2 b3) = pack4 b0 b1 b2 (S b3) := by
  have e : pack4 b0 b1 b2 b3 / 16777216 = b3 := by unfold pack4; omega
  unfold armSubByte3
  rw [e]
  unfold bfi pack4
  norm_num
  omega

theorem armSubWord_pack (S : Nat → Nat) (hS : ∀ x, x < 256 → S x < 256)
    (b0 b1 b2 b3 : Nat) (h0 : b0 < 256) (h1 : b1 < 256) (h2 : b2 < 256) (h3 : b3 < 256) :
    armSubWord S (pack4 b0 b1 b2 b3) = pack4 (S b0) (S b1) (S b2) (S b3) := by
  unfold armSubWord
  rw [armSubByte0_pack S b0 b1 b2 b3 h0 (hS b0 h0),
    armSubByte1_pack S (S b0) b1 b2 b3 (hS b0 h0) h1 (hS b1 h1),
    armSubByte2_pack S (S b0) (S b1) b2 b3 (hS b0 h0) (hS b1 h1) h2 (hS b2 h2),
    armSubByte3_pack S (S b0) (S b1) (S b2) b3 (hS b0 h0) (hS b1 h1) (hS b2 h2) h3 (hS b3 h3)]

theorem ror32_24_pack (b0 b1 b2 b3 : Nat) (h0 : b0 < 256) (h1 : b1 < 256) (h2 : b2 < 256) :
    ror32 (pack4 b0 b1 b2 b3) 24 = pack4 b3 b0 b1 b2 := by
  unfold ror32 pack4
  norm_num
  omega

theorem ror32_16_pack (b0 b1 b2 b3 : Nat) (h0 : b0 < 256) (h1 : b1 < 256) :
    ror32 (pack4 b0 b1 b2 b3) 16 = pack4 b2 b3 b0 b1 := by
  unfold ror32 pack4
  norm_num
  omega

theorem ror32_8_pack (b0 b1 b2 b3 : Nat) (h0 : b0 < 256) :
    ror32 (pack4 b0 b1 b2 b3) 8 = pack4 b1 b2 b3 b0 := by
  unfold ror32 pack4
  norm_num
  omega

/-! ## Byte bounds are preserved by every pipeline step -/

theorem bounded_subCells (S : Nat → Nat) (hS : ∀ x, x < 256 → S x < 256) (st : S16)
    (h : Bounded st) : Bounded (subCells S st) := by
  obtain ⟨h0, h1, h2, h3, h4, h5, h6, h7, h8, h9, h10, h11, h12, h13, h14, h15⟩ := h
  exact ⟨hS _ h0, hS _ h1, hS _ h2, hS _ h3, hS _ h4, hS _ h5, hS _ h6, hS _ h7,
    hS _ h8, hS _ h9, hS _ h10, hS _ h11, hS _ h12, hS _ h13, hS _ h14, hS _ h15⟩

theorem bounded_addRoundKey (rk : Nat → Nat) (hK : ∀ i, rk i < 256) (off : Nat) (st : S16)
    (h : Bounded st) : Bounded (addRoundKey rk off st) := by
  obtain ⟨h0, h1, h2, h3, h4, h5, h6, h7, h8, h9, h10, h11, h12, h13, h14, h15⟩ := h
  exact ⟨xor_lt256 h0 (hK off), xor_lt256 h1 (hK (off + 1)), xor_lt256 h2 (hK (off + 2)),
    xor_lt256 h3 (hK (off + 3)), xor_lt256 h4 (hK (off + 4)), xor_lt256 h5 (hK (off + 5)),
    xor_lt256 h6 (hK (off + 6)), xor_lt256 h7 (hK (off + 7)), xor_lt256 h8 (by omega),
    h9, h10, h11, h12, h13, h14, h15⟩

theorem bounded_shiftRows (st : S16) (h : Bounded st) : Bounded (shiftRows st) := by
  obtain ⟨h0, h1, h2, h3, h4, h5, h6, h7, h8, h9, h10, h11, h12, h13, h14, h15⟩ := h
  exact ⟨h0, h1, h2, h3, h7, h4, h5, h6, h10, h11, h8, h9, h13, h14, h15, h12⟩

theorem bounded_mixRot (st : S16) (h : Bounded st) :
    Bounded (rotateRowsDown (mixColumnsXors st)) := by
  obtain ⟨h0, h1, h2, h3, h4, h5, h6, h7, h8, h9, h10, h11, h12, h13, h14, h15⟩ := h
  exact ⟨xor_lt256 h12 (xor_lt256 h8 h0), xor_lt256 h13 (xor_lt256 h9 h1),
    xor_lt256 h14 (xor_lt256 h10 h2), xor_lt256 h15 (xor_lt256 h11 h3),
    h0, h1, h2, h3,
    xor_lt256 h4 h8, xor_lt256 h5 h9, xor_lt256 h6 h10, xor_lt256 h7 h11,
    xor_lt256 h8 h0, xor_lt256 h9 h1, xor_lt256 h10 h2, xor_lt256 h11 h3⟩

theorem bounded_roundSkinny (S rk : Nat → Nat) (hS : ∀ x, x < 256 → S x < 256)
    (hK : ∀ i, rk i < 256) (off : Nat) (st : S16) (h : Bounded st) :
    Bounded (roundSkinny S rk off st) :=
  bounded_mixRot _ (bounded_shiftRows _
    (bounded_addRoundKey rk hK off _ (bounded_subCells S hS st h)))

theorem bounded_skinnyRounds (S rk : Nat → Nat) (hS : ∀ x, x < 256 → S x < 256)
    (hK : ∀ i, rk i < 256) : ∀ n off st, Bounded st → Bounded (skinnyRounds S rk n off st) := by
  intro n
  induction n with
  | zero => intro off st h; exact h
  | succ n ih =>
      intro off st h
      exact ih (off + 8) _ (bounded_roundSkinny S rk hS hK off st h)

/-! ## The ARM body computes the byte-level pipeline -/

theorem armStore_armLoad (b : S16) (hb : Bounded b) : armStore (armLoad b) = b := by
  obtain ⟨h0, h1, h2, h3, h4, h5, h6, h7, h8, h9, h10, h11, h12, h13, h14, h15⟩ := hb
  unfold armStore armLoad
  dsimp only
  rw [pack4_byte0 _ _ _ _ h0, pack4_byte1 _ _ _ _ h0 h1, pack4_byte2 _ _ _ _ h0 h1 h2,
    pack4_byte3 _ _ _ _ h0 h1 h2 h3,
    pack4_byte0 _ _ _ _ h4, pack4_byte1 _ _ _ _ h4 h5, pack4_byte2 _ _ _ _ h4 h5 h6,
    pack4_byte3 _ _ _ _ h4 h5 h6 h7,
    pack4_byte0 _ _ _ _ h8, pack4_byte1 _ _ _ _ h8 h9, pack4_byte2 _ _ _ _ h8 h9 h10,
    pack4_byte3 _ _ _ _ h8 h9 h10 h11,
    pack4_byte0 _ _ _ _ h12, pack4_byte1 _ _ _ _ h12 h13, pack4_byte2 _ _ _ _ h12 h13 h14,
    pack4_byte3 _ _ _ _ h12 h13 h14 h15]

theorem armSubCells_load (S : Nat → Nat) (hS : ∀ x, x < 256 → S x < 256) (st : S16)
    (h : Bounded st) : armSubCells S (armLoad st) = armLoad (subCells S st) := by
  obtain ⟨h0, h1, h2, h3, h4, h5, h6, h7, h8, h9, h10, h11, h12, h13, h14, h15⟩ := h
  unfold armSubCells armLoad subCells
  dsimp only
  rw [armSubWord_pack S hS _ _ _ _ h0 h1 h2 h3, armSubWord_pack S hS _ _ _ _ h4 h5 h6 h7,
    armSubWord_pack S hS _ _ _ _ h8 h9 h10 h11, armSubWord_pack S hS _ _ _ _ h12 h13 h14 h15]

theorem armAddKey_load (rk : Nat → Nat) (hK : ∀ i, rk i < 256) (off : Nat) (st : S16)
    (h : Bounded st) :
    armAddKey rk off (armLoad st) = (off + 8, armLoad (addRoundKey rk off st)) := by
  obtain ⟨h0, h1, h2, h3, h4, h5, h6, h7, h8, h9, h10, h11, h12, h13, h14, h15⟩ := h
  unfold armAddKey armLoad addRoundKey
  dsimp only
  rw [pack4_xor _ _ _ _ _ _ _ _ h0 h1 h2 (hK off) (hK (off + 1)) (hK (off + 2)),
    pack4_xor _ _ _ _ _ _ _ _ h4 h5 h6 (hK (off + 4)) (hK (off + 5)) (hK (off + 6)),
    pack4_xor_low _ _ _ _ _ h8 (by omega)]

theorem armShiftRows_load (st : S16) (h : Bounded st) :
    armShiftRows (armLoad st) = armLoad (shiftRows st) := by
  obtain ⟨h0, h1, h2, h3, h4, h5, h6, h7, h8, h9, h10, h11, h12, h13, h14, h15⟩ := h
  unfold armShiftRows armLoad shiftRows
  dsimp only
  rw [ror32_24_pack _ _ _ _ h4 h5 h6, ror32_16_pack _ _ _ _ h8 h9, ror32_8_pack _ _ _ _ h12]

theorem armMixColumns_load (st : S16) (h : Bounded st) :
    armMixColumns (armLoad st) = armLoad (rotateRowsDown (mixColumnsXors st)) := by
  obtain ⟨h0, h1, h2, h3, h4, h5, h6, h7, h8, h9, h10, h11, h12, h13, h14, h15⟩ := h
  unfold armMixColumns armLoad rotateRowsDown mixColumnsXors
  dsimp only
  rw [pack4_xor _ _ _ _ _ _ _ _ h4 h5 h6 h8 h9 h10,
    pack4_xor _ _ _ _ _ _ _ _ h8 h9 h10 h0 h1 h2,
    pack4_xor _ _ _ _ _ _ _ _ h12 h13 h14
      (xor_lt256 h8 h0) (xor_lt256 h9 h1) (xor_lt256 h10 h2)]

theorem armRound_load (S rk : Nat → Nat) (hS : ∀ x, x < 256 → S x < 256)
    (hK : ∀ i, rk i < 256) (off : Nat) (st : S16) (h : Bounded st) :
    armRound S rk off (armLoad st) = (off + 8, armLoad (roundSkinny S rk off st)) := by
  unfold armRound
  rw [armSubCells_load S hS st h,
    armAddKey_load rk hK off _ (bounded_subCells S hS st h)]
  dsimp only
  rw [armShiftRows_load _ (bounded_addRoundKey rk hK off _ (bounded_subCells S hS st h)),
    armMixColumns_load _
      (bounded_shiftRows _ (bounded_addRoundKey rk hK off _ (bounded_subCells S hS st h)))]
  rfl

theorem armRounds_load (S rk : Nat → Nat) (hS : ∀ x, x < 256 → S x < 256)
    (hK : ∀ i, rk i < 256) : ∀ n off st, Bounded st →
    armRounds S rk n off (armLoad st) = (off + 8 * n, armLoad (skinnyRounds S rk n off st)) := by
  intro n
  induction n with
  | zero => intro off st h; simp [armRounds, skinnyRounds]
  | succ n ih =>
      intro off st h
      simp only [armRounds, skinnyRounds]
      rw [armRound_load S rk hS hK off st h]
      dsimp only
      rw [ih (off + 8) _ (bounded_roundSkinny S rk hS hK off st h),
        show off + 8 + 8 * n = off + 8 * (n + 1) by omega]

/-- The ARM `Encrypt` is the 40-round byte-level pipeline. -/
theorem encryptARM_pipeline (S rk : Nat → Nat) (hS : ∀ x, x < 256 → S x < 256)
    (hK : ∀ i, rk i < 256) (b : S16) (hb : Bounded b) :
    Encrypt_ARM S rk b = skinnyRounds S rk 40 0 b := by
  unfold Encrypt_ARM
  rw [armRounds_load S rk hS hK 40 0 b hb]
  exact armStore_armLoad _ (bounded_skinnyRounds S rk hS hK 40 0 b hb)

/-! ## The AVR body computes the byte-level pipeline

The AVR registers are byte-sized, so the correspondence through the
register-to-cell wiring `avrLoad` is definitional. -/

theorem avrRound_load (S rk : Nat → Nat) (off : Nat) (st : S16) :
    avrRound S rk off (avrLoad st) = avrLoad (roundSkinny S rk off st) := rfl

theorem avrRounds_load (S rk : Nat → Nat) : ∀ n off st,
    avrRounds S rk n off (avrLoad st) = avrLoad (skinnyRounds S rk n off st) := by
  intro n
  induction n with
  | zero => intro off st; rfl
  | succ n ih =>
      intro off st
      simp only [avrRounds, skinnyRounds]
      rw [avrRound_load, ih]

/-- The AVR `Encrypt` is the 40-round byte-level pipeline, with no
side condition: all its operations are byte moves and XORs. -/
theorem encryptAVR_pipeline (S rk : Nat → Nat) (b : S16) :
    Encrypt_AVR S rk b = skinnyRounds S rk 40 0 b := by
  unfold Encrypt_AVR
  rw [avrRounds_load]
  rfl

/-! ## The MSP body computes the byte-level pipeline -/

theorem mspSub_load (S rk : Nat → Nat) (off : Nat) (st : S16) (h : Bounded st) :
    mspSub S rk off (mspLoad st) = shiftRows (addRoundKey rk off (subCells S st)) := by
  obtain ⟨h0, h1, h2, h3, h4, h5, h6, h7, h8, h9, h10, h11, h12, h13, h14, h15⟩ := h
  unfold mspSub mspLoad
  dsimp only
  rw [pack2_lo st.s0 st.s1 h0, swpb_lo st.s0 st.s1 h0 h1,
    pack2_lo st.s2 st.s3 h2, swpb_lo st.s2 st.s3 h2 h3,
    pack2_lo st.s4 st.s5 h4, swpb_lo st.s4 st.s5 h4 h5,
    pack2_lo st.s6 st.s7 h6, swpb_lo st.s6 st.s7 h6 h7,
    pack2_lo st.s8 st.s9 h8, swpb_lo st.s8 st.s9 h8 h9,
    pack2_lo st.s10 st.s11 h10, swpb_lo st.s10 st.s11 h10 h11,
    pack2_lo st.s12 st.s13 h12, swpb_lo st.s12 st.s13 h12 h13,
    pack2_lo st.s14 st.s15 h14, swpb_lo st.s14 st.s15 h14 h15]
  rfl

theorem mspMix_load (v : S16) (h : Bounded v) :
    mspMix v = mspLoad (rotateRowsDown (mixColumnsXors v)) := by
  obtain ⟨h0, h1, h2, h3, h4, h5, h6, h7, h8, h9, h10, h11, h12, h13, h14, h15⟩ := h
  unfold mspMix mspLoad rotateRowsDown mixColumnsXors
  dsimp only
  rw [pack2_xor _ _ _ _ h4 h8, pack2_xor _ _ _ _ h8 h0,
    pack2_xor _ _ _ _ h12 (xor_lt256 h8 h0),
    pack2_xor _ _ _ _ h6 h10, pack2_xor _ _ _ _ h10 h2,
    pack2_xor _ _ _ _ h14 (xor_lt256 h10 h2)]

theorem mspRound_load (S rk : Nat → Nat) (hS : ∀ x, x < 256 → S x < 256)
    (hK : ∀ i, rk i < 256) (off : Nat) (st : S16) (h : Bounded st) :
    (mspRound S rk off (mspLoad st)).1 = mspLoad (roundSkinny S rk off st) := by
  unfold mspRound
  dsimp only
  rw [mspSub_load S rk off st h]
  exact mspMix_load _
    (bounded_shiftRows _ (bounded_addRoundKey rk hK off _ (bounded_subCells S hS st h)))

theorem mspRounds_load (S rk : Nat → Nat) (hS : ∀ x, x < 256 → S x < 256)
    (hK : ∀ i, rk i < 256) : ∀ n off st m, Bounded st →
    (mspRounds S rk n off (mspLoad st) m).1 = mspLoad (skinnyRounds S rk n off st) := by
  intro n
  induction n with
  | zero => intro off st m h; rfl
  | succ n ih =>
      intro off st m h
      simp only [mspRounds, skinnyRounds]
      rw [mspRound_load S rk hS hK off st h]
      exact ih (off + 8) _ _ (bounded_roundSkinny S rk hS hK off st h)

theorem mspStore_mspLoad (b : S16) (hb : Bounded b) : mspStore (mspLoad b) = b := by
  obtain ⟨h0, h1, h2, h3, h4, h5, h6, h7, h8, h9, h10, h11, h12, h13, h14, h15⟩ := hb
  unfold mspStore mspLoad
  dsimp only
  rw [pack2_lo _ _ h0, pack2_hi _ _ h0 h1, pack2_lo _ _ h2, pack2_hi _ _ h2 h3,
    pack2_lo _ _ h4, pack2_hi _ _ h4 h5, pack2_lo _ _ h6, pack2_hi _ _ h6 h7,
    pack2_lo _ _ h8, pack2_hi _ _ h8 h9, pack2_lo _ _ h10, pack2_hi _ _ h10 h11,
    pack2_lo _ _ h12, pack2_hi _ _ h12 h13, pack2_lo _ _ h14, pack2_hi _ _ h14 h15]

/-- The MSP `Encrypt` is the 40-round byte-level pipeline. -/
theorem encryptMSP_pipeline (S rk : Nat → Nat) (hS : ∀ x, x < 256 → S x < 256)
    (hK : ∀ i, rk i < 256) (b : S16) (hb : Bounded b) :
    Encrypt_MSP S rk b = skinnyRounds S rk 40 0 b := by
  unfold Encrypt_MSP
  rw [mspRounds_load S rk hS hK 40 0 b b hb]
  exact mspStore_mspLoad _ (bounded_skinnyRounds S rk hS hK 40 0 b hb)

/-! ## Key-cursor helpers -/

/-- The round-key cursor after `n` rounds is exactly `off + 8 * n`. -/
theorem armRounds_offset (S rk : Nat → Nat) : ∀ n off a,
    (armRounds S rk n off a).1 = off + 8 * n := by
  intro n
  induction n with
  | zero => intro off a; simp [armRounds]
  | succ n ih =>
      intro off a
      simp only [armRounds]
      rw [ih]
      show off + 8 + 8 * n = off + 8 * (n + 1)
      omega

/-- `armRounds` reads the key stream only at offsets `off..off + 8 * n - 1`. -/
theorem armRounds_key_ext (S rk rk' : Nat → Nat) : ∀ n off a,
    (∀ i, off ≤ i → i < off + 8 * n → rk i = rk' i) →
    armRounds S rk n off a = armRounds S rk' n off a := by
  intro n
  induction n with
  | zero => intro off a h; rfl
  | succ n ih =>
      intro off a h
      simp only [armRounds]
      have e : armRound S rk off a = armRound S rk' off a := by
        unfold armRound armAddKey
        rw [h off (by omega) (by omega), h (off + 1) (by omega) (by omega),
          h (off + 2) (by omega) (by omega), h (off + 3) (by omega) (by omega),
          h (off + 4) (by omega) (by omega), h (off + 5) (by omega) (by omega),
          h (off + 6) (by omega) (by omega), h (off + 7) (by omega) (by omega)]
      rw [e]
      exact ih (off + 8) _ (fun i hi1 hi2 => h i (by omega) (by omega))

/-! ## Column locality of the MixColumns block -/

/-- Column `c` of the MixColumns output depends only on column `c` of its
input. -/
theorem mixCol_dep (st st' : S16) (c : Nat) (hc : c < 4) (hb : Bounded st)
    (hb' : Bounded st') (h : colCells st c = colCells st' c) :
    colCells (armStore (armMixColumns (armLoad st))) c
      = colCells (armStore (armMixColumns (armLoad st'))) c := by
  rw [armMixColumns_load st hb, armMixColumns_load st' hb',
    armStore_armLoad _ (bounded_mixRot st hb), armStore_armLoad _ (bounded_mixRot st' hb')]
  interval_cases c <;>
    · simp only [colCells, rotateRowsDown, mixColumnsXors, Prod.mk.injEq] at h ⊢
      obtain ⟨e1, e2, e3, e4⟩ := h
      simp [e1, e2, e3, e4]

/-! ## Witness helpers -/

theorem idSbox_lt (x : Nat) (_h : x < 256) : idSbox x < 256 := by
  unfold idSbox; omega

theorem zeroKeys_lt (i : Nat) : zeroKeys i < 256 := by
  unfold zeroKeys; omega

theorem zeroBlock_bounded : Bounded zeroBlock := by decide

theorem oneS1_bounded : Bounded oneS1 := by decide

theorem oneS12_bounded : Bounded oneS12 := by decide

/-! ## Claim theorems -/

set_option maxRecDepth 8192 in
/-- C1 (counterexample): `Encrypt` does not compute 40 rounds of the
pipeline when MixColumns is read as the spec describes it (three XORs, no
row permutation): on the all-zero block with the all-zero key stream and the
identity S-box the two disagree. -/
theorem encrypt_arm_ne_spec_rounds :
    Encrypt_ARM idSbox zeroKeys zeroBlock ≠ specRounds idSbox zeroKeys 40 0 zeroBlock := by
  decide

/-- C1 (amended): for every 16-byte block, byte key stream and byte-valued
S-box, the ARM `Encrypt` overwrites the block with the result of 40 rounds
of the SubCells, AddConstants+AddRoundTweakey, ShiftRows, MixColumns
pipeline, where the MixColumns step is the three per-column XORs followed by
the downward row renaming (`rotateRowsDown`); in particular on the all-zero
block with the all-zero round-key stream it produces that pipeline's output
(the witness below instantiates exactly this case). -/
theorem encrypt_arm_computes_pipeline (S rk : Nat → Nat)
    (hS : ∀ x, x < 256 → S x < 256) (hK : ∀ i, rk i < 256) (b : S16) (hb : Bounded b) :
    Encrypt_ARM S rk b = skinnyRounds S rk 40 0 b :=
  encryptARM_pipeline S rk hS hK b hb

/-- C1 witness: the amended theorem at the all-zero block, the all-zero
round-key stream and a concrete byte-valued S-box. -/
theorem encrypt_arm_computes_pipeline_witness :
    Encrypt_ARM idSbox zeroKeys zeroBlock = skinnyRounds idSbox zeroKeys 40 0 zeroBlock :=
  encrypt_arm_computes_pipeline idSbox zeroKeys idSbox_lt zeroKeys_lt zeroBlock
    zeroBlock_bounded

/-- C2: the three architecture-specific `Encrypt` bodies compute the same
function: for every 16-byte block and byte key stream (with a byte-valued
S-box), the AVR and MSP results equal the ARM result. -/
theorem arch_variants_agree (S rk : Nat → Nat) (hS : ∀ x, x < 256 → S x < 256)
    (hK : ∀ i, rk i < 256) (b : S16) (hb : Bounded b) :
    Encrypt_AVR S rk b = Encrypt_ARM S rk b ∧ Encrypt_MSP S rk b = Encrypt_ARM S rk b := by
  constructor
  · rw [encryptAVR_pipeline, encryptARM_pipeline S rk hS hK b hb]
  · rw [encryptMSP_pipeline S rk hS hK b hb, encryptARM_pipeline S rk hS hK b hb]

/-- C2 witness: the equivalence at a concrete block, key stream and S-box. -/
theorem arch_variants_agree_witness :
    Encrypt_AVR idSbox zeroKeys oneS12 = Encrypt_ARM idSbox zeroKeys oneS12 ∧
      Encrypt_MSP idSbox zeroKeys oneS12 = Encrypt_ARM idSbox zeroKeys oneS12 :=
  arch_variants_agree idSbox zeroKeys idSbox_lt zeroKeys_lt oneS12 oneS12_bounded

set_option maxRecDepth 8192 in
/-- C3 (counterexample): the MixColumns block of the ARM body is not the
three per-column XORs alone: on the state whose only nonzero cell is `s12`
the block moves that column value into row 0, so rows are permuted. -/
theorem mixColumns_ne_spec_mixColumns :
    armStore (armMixColumns (armLoad oneS12)) ≠ mixColumnsSpec oneS12 := by
  decide

/-- C3 (amended): the MixColumns block performs the three per-column XORs
`row1 ^= row2; row2 ^= row0; row3 ^= row2` (updated `row2` in the third) and
then renames the rows downward: the output rows are, top to bottom, the
XORed rows 3, 0, 1, 2.  Row 0 is not left in place. -/
theorem mixColumns_three_xors_then_rotation (st : S16) (h : Bounded st) :
    armStore (armMixColumns (armLoad st)) = rotateRowsDown (mixColumnsSpec st) := by
  rw [armMixColumns_load st h, armStore_armLoad _ (bounded_mixRot st h)]
  rfl

/-- C3 witness: the amended theorem at a concrete state. -/
theorem mixColumns_three_xors_then_rotation_witness :
    armStore (armMixColumns (armLoad oneS12)) = rotateRowsDown (mixColumnsSpec oneS12) :=
  mixColumns_three_xors_then_rotation oneS12 oneS12_bounded

/-- C4: the AddConstants/AddRoundTweakey block XORs the 8-byte round-key
chunk at the cursor byte-for-byte into cells `s0..s7`, XORs `0x02` into
`s8` only, leaves `s9..s15` unchanged, and advances the cursor by exactly
8 bytes. -/
theorem addRoundKey_step (rk : Nat → Nat) (hK : ∀ i, rk i < 256) (off : Nat) (st : S16)
    (h : Bounded st) :
    armAddKey rk off (armLoad st) =
      (off + 8, armLoad
        { s0 := st.s0 ^^^ rk off, s1 := st.s1 ^^^ rk (off + 1),
          s2 := st.s2 ^^^ rk (off + 2), s3 := st.s3 ^^^ rk (off + 3),
          s4 := st.s4 ^^^ rk (off + 4), s5 := st.s5 ^^^ rk (off + 5),
          s6 := st.s6 ^^^ rk (off + 6), s7 := st.s7 ^^^ rk (off + 7),
          s8 := st.s8 ^^^ 2,
          s9 := st.s9, s10 := st.s10, s11 := st.s11, s12 := st.s12,
          s13 := st.s13, s14 := st.s14, s15 := st.s15 }) :=
  armAddKey_load rk hK off st h

/-- C4 witness: the AddRoundTweakey block at a concrete state and key. -/
theorem addRoundKey_step_witness :
    armAddKey zeroKeys 3 (armLoad oneS12) =
      (3 + 8, armLoad
        { s0 := oneS12.s0 ^^^ zeroKeys 3, s1 := oneS12.s1 ^^^ zeroKeys (3 + 1),
          s2 := oneS12.s2 ^^^ zeroKeys (3 + 2), s3 := oneS12.s3 ^^^ zeroKeys (3 + 3),
          s4 := oneS12.s4 ^^^ zeroKeys (3 + 4), s5 := oneS12.s5 ^^^ zeroKeys (3 + 5),
          s6 := oneS12.s6 ^^^ zeroKeys (3 + 6), s7 := oneS12.s7 ^^^ zeroKeys (3 + 7),
          s8 := oneS12.s8 ^^^ 2,
          s9 := oneS12.s9, s10 := oneS12.s10, s11 := oneS12.s11, s12 := oneS12.s12,
          s13 := oneS12.s13, s14 := oneS12.s14, s15 := oneS12.s15 }) :=
  addRoundKey_step zeroKeys zeroKeys_lt 3 oneS12 oneS12_bounded

/-- C5: the ShiftRows block rotates row `k` right by `k` positions: row 0 is
unchanged, row 1 becomes `(s7, s4, s5, s6)`, row 2 becomes
`(s10, s11, s8, s9)`, row 3 becomes `(s13, s14, s15, s12)`. -/
theorem shiftRows_step (st : S16) (h : Bounded st) :
    armShiftRows (armLoad st) = armLoad
      { s0 := st.s0, s1 := st.s1, s2 := st.s2, s3 := st.s3,
        s4 := st.s7, s5 := st.s4, s6 := st.s5, s7 := st.s6,
        s8 := st.s10, s9 := st.s11, s10 := st.s8, s11 := st.s9,
        s12 := st.s13, s13 := st.s14, s14 := st.s15, s15 := st.s12 } :=
  armShiftRows_load st h

/-- C5 witness: the ShiftRows block at a concrete state. -/
theorem shiftRows_step_witness :
    armShiftRows (armLoad oneS12) = armLoad
      { s0 := oneS12.s0, s1 := oneS12.s1, s2 := oneS12.s2, s3 := oneS12.s3,
        s4 := oneS12.s7, s5 := oneS12.s4, s6 := oneS12.s5, s7 := oneS12.s6,
        s8 := oneS12.s10, s9 := oneS12.s11, s10 := oneS12.s8, s11 := oneS12.s9,
        s12 := oneS12.s13, s13 := oneS12.s14, s14 := oneS12.s15, s15 := oneS12.s12 } :=
  shiftRows_step oneS12 oneS12_bounded

/-- C6: the SubCells block replaces every one of the 16 cells `s_i` with
`SBOX[s_i]`; no cell escapes substitution and no other change is made. -/
theorem subCells_step (S : Nat → Nat) (hS : ∀ x, x < 256 → S x < 256) (st : S16)
    (h : Bounded st) :
    armSubCells S (armLoad st) = armLoad
      { s0 := S st.s0, s1 := S st.s1, s2 := S st.s2, s3 := S st.s3,
        s4 := S st.s4, s5 := S st.s5, s6 := S st.s6, s7 := S st.s7,
        s8 := S st.s8, s9 := S st.s9, s10 := S st.s10, s11 := S st.s11,
        s12 := S st.s12, s13 := S st.s13, s14 := S st.s14, s15 := S st.s15 } :=
  armSubCells_load S hS st h

/-- C6 witness: the SubCells block at a concrete state and S-box. -/
theorem subCells_step_witness :
    armSubCells idSbox (armLoad oneS12) = armLoad
      { s0 := idSbox oneS12.s0, s1 := idSbox oneS12.s1, s2 := idSbox oneS12.s2,
        s3 := idSbox oneS12.s3, s4 := idSbox oneS12.s4, s5 := idSbox oneS12.s5,
        s6 := idSbox oneS12.s6, s7 := idSbox oneS12.s7, s8 := idSbox oneS12.s8,
        s9 := idSbox oneS12.s9, s10 := idSbox oneS12.s10, s11 := idSbox oneS12.s11,
        s12 := idSbox oneS12.s12, s13 := idSbox oneS12.s13, s14 := idSbox oneS12.s14,
        s15 := idSbox oneS12.s15 } :=
  subCells_step idSbox idSbox_lt oneS12 oneS12_bounded

/-- C7: the ARM round loop runs exactly 40 iterations (third conjunct,
definitional); after `n` rounds the key cursor has advanced by exactly
`8 * n` bytes (first conjunct); and the result depends only on the first
320 bytes of the key stream, so no byte beyond offset 319 is accessed
(second conjunct). -/
theorem round_count_and_key_consumption (S rk rk' : Nat → Nat) (b : S16) :
    (∀ n off a, (armRounds S rk n off a).1 = off + 8 * n) ∧
    ((∀ i, i < 320 → rk i = rk' i) → Encrypt_ARM S rk b = Encrypt_ARM S rk' b) ∧
    Encrypt_ARM S rk b = armStore (armRounds S rk 40 0 (armLoad b)).2 := by
  refine ⟨armRounds_offset S rk, ?_, rfl⟩
  intro hagree
  unfold Encrypt_ARM
  rw [armRounds_key_ext S rk rk' 40 0 (armLoad b) (fun i h1 h2 => hagree i (by omega))]

/-- C7 witness: cursor position after one round, and insensitivity to key
bytes beyond offset 319, at concrete inputs. -/
theorem round_count_and_key_consumption_witness :
    (armRounds idSbox zeroKeys 1 0 (armLoad zeroBlock)).1 = 0 + 8 * 1 ∧
      Encrypt_ARM idSbox zeroKeys zeroBlock = Encrypt_ARM idSbox zeroKeys320 zeroBlock :=
  ⟨(round_count_and_key_consumption idSbox zeroKeys zeroKeys320 zeroBlock).1 1 0
      (armLoad zeroBlock),
    (round_count_and_key_consumption idSbox zeroKeys zeroKeys320 zeroBlock).2.1
      (fun i h => by unfold zeroKeys zeroKeys320; rw [if_pos h])⟩

/-- C8: the MixColumns block acts on the four columns independently: if two
states differ only in column `j`, the outputs agree on every cell outside
column `j`. -/
theorem mixColumns_column_independence (st st' : S16) (j : Nat) (_hj : j < 4)
    (hb : Bounded st) (hb' : Bounded st')
    (h : ∀ c, c < 4 → c ≠ j → colCells st c = colCells st' c) :
    ∀ c, c < 4 → c ≠ j → colCells (armStore (armMixColumns (armLoad st))) c
      = colCells (armStore (armMixColumns (armLoad st'))) c := by
  intro c hc hcj
  exact mixCol_dep st st' c hc hb hb' (h c hc hcj)

/-- C8 witness: two states differing only in column 1; the MixColumns
outputs agree on column 0. -/
theorem mixColumns_column_independence_witness :
    colCells (armStore (armMixColumns (armLoad zeroBlock))) 0
      = colCells (armStore (armMixColumns (armLoad oneS1))) 0 :=
  mixColumns_column_independence zeroBlock oneS1 1 (by omega) zeroBlock_bounded
    oneS1_bounded (by decide) 0 (by omega) (by omega)

/-- C9: the ARM `Encrypt` leaves the round-key buffer and the S-box table
exactly as they were, and mutates no memory outside the 16 block bytes. -/
theorem encrypt_frame_readonly (m : Mem) :
    (Encrypt_ARM_mem m).key = m.key ∧ (Encrypt_ARM_mem m).sbox = m.sbox ∧
      ∀ i, 16 ≤ i → (Encrypt_ARM_mem m).blk i = m.blk i := by
  refine ⟨rfl, rfl, ?_⟩
  intro i hi
  show storeBlock (Encrypt_ARM m.sbox m.key (loadBlock m.blk)) m.blk i = m.blk i
  unfold storeBlock
  rw [if_neg (by omega : ¬ i = 0), if_neg (by omega : ¬ i = 1), if_neg (by omega : ¬ i = 2),
    if_neg (by omega : ¬ i = 3), if_neg (by omega : ¬ i = 4), if_neg (by omega : ¬ i = 5),
    if_neg (by omega : ¬ i = 6), if_neg (by omega : ¬ i = 7), if_neg (by omega : ¬ i = 8),
    if_neg (by omega : ¬ i = 9), if_neg (by omega : ¬ i = 10), if_neg (by omega : ¬ i = 11),
    if_neg (by omega : ¬ i = 12), if_neg (by omega : ¬ i = 13), if_neg (by omega : ¬ i = 14),
    if_neg (by omega : ¬ i = 15)]

/-- C9 witness: the frame property at a concrete memory and offset. -/
theorem encrypt_frame_readonly_witness :
    (Encrypt_ARM_mem memExample).blk 17 = memExample.blk 17 :=
  (encrypt_frame_readonly memExample).2.2 17 (by omega)

/-- C10: when none of the AVR, MSP or ARM build macros is defined, the
`Encrypt` body is empty, so it is the identity on all of memory: block,
round keys and S-box are unchanged. -/
theorem generic_stub_identity (m : Mem) : Encrypt_generic m = m := rfl

end Skinny
